import Mathlib

/-!
Verification of the visual-comparison pipeline of `playwright-sheridan`
(`src/tests/visualTest.spec.js` and `src/config.js`).

The pipeline is embedded shallowly: the filesystem is a map from path
strings to optional rasters, rasters are dimensioned pixel grids, and the
JavaScript helper functions (`resizeImage`, `compareScreenshots`,
`captureScreenshot`, the orchestrator loop, and the pieces of
`generateHtmlReport` that classify, count and sort results) become Lean
functions over that state.  The external `sharp` and `pixelmatch`
libraries are not part of the repository; they are modelled from the
specification's contracts (see the doc comments of `normalize`,
`pixelDelta` and `pixelmatchCount`).
-/

namespace VisualTest

/-- An RGBA pixel, one byte per channel, as in the PNG buffers the script
compares. -/
structure Pixel where
  r : ℕ
  g : ℕ
  b : ℕ
  a : ℕ
deriving DecidableEq

/-- The padding background used by `resizeImage`:
`{ r: 255, g: 255, b: 255, alpha: 0 }`. -/
def background : Pixel := ⟨255, 255, 255, 0⟩

/-- A decoded raster image: dimensions plus a pixel lookup.  Positions
outside the `width × height` box are not meaningful; every raster this
development constructs maps them to `background`. -/
@[ext]
structure Raster where
  width : ℕ
  height : ℕ
  pix : ℕ → ℕ → Pixel

/-- The filesystem visible to the script: a map from path strings to the
raster stored there, `none` when `fs.existsSync` would be false. -/
abbrev FS := String → Option Raster

/-- Reading a raster file (`PNG.sync.read(fs.readFileSync p)`); the
callers below only read paths they have checked or just written. -/
def readRaster (fs : FS) (p : String) : Raster :=
  (fs p).getD ⟨0, 0, fun _ _ => background⟩

/-- Writing a raster file (`fs.writeFileSync p bytes`). -/
def writeRaster (fs : FS) (p : String) (r : Raster) : FS :=
  fun q => if q = p then some r else fs q

/-- Modelled from the spec: the external `sharp` library's
`resize(width, height, { fit: "contain", background })` call, which is not
part of this repository.  Per §4.1 it scales the source to fit entirely
within the target canvas preserving aspect ratio, centres it, and pads the
rest of the canvas with the fixed transparent-white background.  Scaling
uses the common factor `min(tw/sw, th/sh)` with floor rounding and
nearest-neighbour sampling. -/
def normalize (r : Raster) (targetWidth targetHeight : ℕ) : Raster :=
  let s : ℚ := min ((targetWidth : ℚ) / (r.width : ℚ)) ((targetHeight : ℚ) / (r.height : ℚ))
  let scaledW : ℕ := (⌊(r.width : ℚ) * s⌋).toNat
  let scaledH : ℕ := (⌊(r.height : ℚ) * s⌋).toNat
  let offX : ℕ := (targetWidth - scaledW) / 2
  let offY : ℕ := (targetHeight - scaledH) / 2
  { width := targetWidth
    height := targetHeight
    pix := fun x y =>
      if x < targetWidth ∧ y < targetHeight ∧
          offX ≤ x ∧ x < offX + scaledW ∧ offY ≤ y ∧ y < offY + scaledH then
        r.pix (⌊((x - offX : ℕ) : ℚ) / s⌋).toNat (⌊((y - offY : ℕ) : ℚ) / s⌋).toNat
      else background }

@[simp] theorem normalize_width (r : Raster) (w h : ℕ) : (normalize r w h).width = w := rfl

@[simp] theorem normalize_height (r : Raster) (w h : ℕ) : (normalize r w h).height = h := rfl

/-- Modelled from the spec: the perceptual per-pixel difference measure of
the external `pixelmatch` library (§4.2), on a 0–1 channel-difference
scale: the largest channel deviation, normalised by 255. -/
def pixelDelta (p q : Pixel) : ℚ :=
  ((max (max (Nat.dist p.r q.r) (Nat.dist p.g q.g))
        (max (Nat.dist p.b q.b) (Nat.dist p.a q.a)) : ℕ) : ℚ) / 255

/-- Modelled from the spec: a pixel pair mismatches when its perceptual
difference exceeds the fixed tolerance `threshold: 0.1` (§4.2). -/
def pixelDiffers (p q : Pixel) : Bool :=
  decide (pixelDelta p q > 1 / 10)

/-- Modelled from the spec: the return value of `pixelmatch` — the number
of mismatched pixels over the shared `width × height` grid of the two
rasters (§4.2). -/
def pixelmatchCount (img1 img2 : Raster) : ℕ :=
  ((List.range (img1.width * img1.height)).filter fun i =>
      pixelDiffers (img1.pix (i % img1.width) (i / img1.width))
                   (img2.pix (i % img1.width) (i / img1.width))).length

/-- Modelled from the spec: the diff mask `pixelmatch` fills, tinting
mismatched pixels (blue `[0, 0, 255]` for prod-side differences) and
leaving matching positions blank (§4.2, lines 73–77 of the source). -/
def diffMask (img1 img2 : Raster) : Raster :=
  { width := img1.width
    height := img1.height
    pix := fun x y =>
      if x < img1.width ∧ y < img1.height then
        if pixelDiffers (img1.pix x y) (img2.pix x y) then ⟨0, 0, 255, 255⟩
        else background
      else background }

/-- The similarity score of lines 81–92 of `visualTest.spec.js`:
`matchedPixels / totalPixels * 100` with
`matchedPixels = totalPixels - mismatchedPixels`, the mismatch count
supplied by `pixelmatch`. -/
def diffSimilarity (img1 img2 : Raster) : ℚ :=
  let totalPixels : ℚ := ((img1.width * img1.height : ℕ) : ℚ)
  let mismatchedPixels : ℚ := (pixelmatchCount img1 img2 : ℚ)
  let matchedPixels : ℚ := totalPixels - mismatchedPixels
  matchedPixels / totalPixels * 100

/-- The value stored in `result.similarityPercentage`: a number, or one of
the sentinel strings `"Error"` / `"Size mismatch"` returned by
`compareScreenshots`. -/
inductive Similarity where
  | num (value : ℚ)
  | error
  | sizeMismatch
deriving DecidableEq

/-- `resizeImage(imagePath, width, height)` (lines 38–47): reads the file,
normalizes it, and writes the result back to the same path. -/
def resizeImage (fs : FS) (imagePath : String) (width height : ℕ) : FS :=
  writeRaster fs imagePath (normalize (readRaster fs imagePath) width height)

/-- `compareScreenshots(baselinePath, currentPath, diffPath)`
(lines 50–93), parameterised by the external `pixelmatch` count and mask
functions.  Missing files yield `"Error"`; otherwise both files are
resized in place to 1280×800, re-read, dimension-checked
(`"Size mismatch"` on disagreement), the diff mask is written to
`diffPath`, and the similarity percentage is returned. -/
def compareScreenshots (pm : Raster → Raster → ℕ) (mask : Raster → Raster → Raster)
    (fs : FS) (baselinePath currentPath diffPath : String) : Similarity × FS :=
  if (fs baselinePath).isNone || (fs currentPath).isNone then
    (.error, fs)
  else
    let fs1 := resizeImage fs baselinePath 1280 800
    let fs2 := resizeImage fs1 currentPath 1280 800
    let img1 := readRaster fs2 baselinePath
    let img2 := readRaster fs2 currentPath
    if img1.width ≠ img2.width ∨ img1.height ≠ img2.height then
      (.sizeMismatch, fs2)
    else
      let fs3 := writeRaster fs2 diffPath (mask img1 img2)
      let totalPixels : ℚ := ((img1.width * img1.height : ℕ) : ℚ)
      let mismatchedPixels : ℚ := (pm img1 img2 : ℚ)
      let matchedPixels : ℚ := totalPixels - mismatchedPixels
      (.num (matchedPixels / totalPixels * 100), fs3)

/-- One record of the `results` array the orchestrator accumulates:
`{ pagePath, similarityPercentage }`, plus the `error` message field that
is present only on records pushed by the `catch` branch (line 350–354). -/
structure ComparisonResult where
  pagePath : String
  similarityPercentage : Similarity
  error : Option String := none
deriving DecidableEq

/-- The sanitisation `pagePath.replace(/\//g, "_")` used for artifact
filenames (lines 198 and 322–336): every `/` becomes `_`. -/
def sanitize (pagePath : String) : String :=
  String.mk (pagePath.data.map fun c => if c = '/' then '_' else c)

/-- The staging screenshot path the orchestrator builds with `path.join`
(lines 322–326): `screenshots/Desktop/staging/<sanitized>.png`. -/
def stagingPath (pagePath : String) : String :=
  "screenshots/Desktop/staging/" ++ sanitize pagePath ++ ".png"

/-- The prod screenshot path (lines 327–331). -/
def prodPath (pagePath : String) : String :=
  "screenshots/Desktop/prod/" ++ sanitize pagePath ++ ".png"

/-- The diff artifact path (lines 332–336). -/
def diffPath (pagePath : String) : String :=
  "screenshots/Desktop/diff/" ++ sanitize pagePath ++ ".png"

/-- The staging path template of the report assembler (lines 199–201):
`screenshots/${deviceName}/staging/${sanitizedPath}.png` with
`deviceName = "Desktop"`. -/
def reportStagingPath (pagePath : String) : String :=
  "screenshots/Desktop/staging/" ++ sanitize pagePath ++ ".png"

/-- The prod path template of the report assembler (lines 202–204). -/
def reportProdPath (pagePath : String) : String :=
  "screenshots/Desktop/prod/" ++ sanitize pagePath ++ ".png"

/-- `imageToBase64(imagePath)` (lines 28–35): the embedded image is the
file's current content, or `null` when the file is missing.  The base64
transport encoding is identity on content and is elided. -/
def imageToBase64 (fs : FS) (imagePath : String) : Option Raster :=
  fs imagePath

/-- The per-call outcome of the external screenshot Acquirer: either a
raster was written, or the capture failed with a message. -/
inductive CaptureOutcome where
  | success (img : Raster)
  | failure (msg : String)

/-- `captureScreenshot(page, url, screenshotPath)` (lines 96–109): on
success the raster is written at `screenshotPath`; on failure the message
is only logged (`console.error`) and the filesystem is untouched.  The
function catches its own exceptions and never throws. -/
def captureScreenshot (fs : FS) (screenshotPath : String) (outcome : CaptureOutcome) : FS :=
  match outcome with
  | .success img => writeRaster fs screenshotPath img
  | .failure _ => fs

/-- The body of the orchestrator loop for one `pagePath` (lines 338–348)
on its non-throwing path: capture staging, capture prod, compare, and push
`{ pagePath, similarityPercentage: similarity }` (no `error` field). -/
def processPage (pm : Raster → Raster → ℕ) (mask : Raster → Raster → Raster)
    (fs : FS) (pagePath : String) (stagingOut prodOut : CaptureOutcome) :
    ComparisonResult × FS :=
  let fs1 := captureScreenshot fs (stagingPath pagePath) stagingOut
  let fs2 := captureScreenshot fs1 (prodPath pagePath) prodOut
  let compared := compareScreenshots pm mask fs2
      (stagingPath pagePath) (prodPath pagePath) (diffPath pagePath)
  (⟨pagePath, compared.1, none⟩, compared.2)

/-- Summary of one loop iteration as observed at the `results` array: the
`try` body either completes with a similarity value or throws, in which
case the `catch` branch records `"Error"` plus the thrown message
(lines 338–355). -/
inductive PageStep where
  | value (s : Similarity)
  | thrown (msg : String)

/-- The orchestrator loop (lines 319–356): one record is pushed per
`pagePath`, in input order; a throw while processing a page is caught and
recorded, and the loop continues. -/
def runComparisons (behavior : String → PageStep) (paths : List String) :
    List ComparisonResult :=
  paths.map fun pagePath =>
    match behavior pagePath with
    | .value s => ⟨pagePath, s, none⟩
    | .thrown m => ⟨pagePath, .error, some m⟩

/-- The `passed` count of the report summary (lines 117–120):
records whose similarity is a number `>= 95`. -/
def countPassed (results : List ComparisonResult) : ℕ :=
  (results.filter fun r =>
    match r.similarityPercentage with
    | .num v => decide (95 ≤ v)
    | _ => false).length

/-- The `failed` count (lines 121–124): numbers `< 95`. -/
def countFailed (results : List ComparisonResult) : ℕ :=
  (results.filter fun r =>
    match r.similarityPercentage with
    | .num v => decide (v < 95)
    | _ => false).length

/-- The `errors` count (lines 125–127): records whose similarity is
exactly the string `"Error"` (a `"Size mismatch"` record matches neither
filter). -/
def countErrors (results : List ComparisonResult) : ℕ :=
  (results.filter fun r =>
    match r.similarityPercentage with
    | .error => true
    | _ => false).length

/-- The status cell of a report row (lines 209–220): `"Error"` unless the
similarity is a number, in which case `>= 95` gives `"Pass"` and anything
below gives `"Fail"`. -/
def rowStatusText (r : ComparisonResult) : String :=
  match r.similarityPercentage with
  | .num v => if 95 ≤ v then "Pass" else "Fail"
  | _ => "Error"

/-- The similarity cell of a report row (lines 232–236):
`toFixed(2) + "%"` for numbers — the decimal formatter is the external
`Number.prototype.toFixed`, taken as a parameter — and the literal
`"Error"` otherwise. -/
def rowSimilarityText (toFixed : ℚ → String) (r : ComparisonResult) : String :=
  match r.similarityPercentage with
  | .num v => toFixed v ++ "%"
  | _ => "Error"

/-- The sort comparator of lines 130–140: `-1` whenever the left record
is an `"Error"`, `1` when only the right one is, the numeric difference
when both are numbers, and `0` otherwise. -/
def sortCompare (a b : ComparisonResult) : ℚ :=
  if a.similarityPercentage = .error then -1
  else if b.similarityPercentage = .error then 1
  else
    match a.similarityPercentage, b.similarityPercentage with
    | .num x, .num y => x - y
    | _, _ => 0

/-- One insertion step of the binary-insertion sort `Array.prototype.sort`
performs on arrays of this size, acting on the reversed accumulator: the
pivot `x` moves left past `y` exactly when `sortCompare x y < 0`. -/
def insertRev (x : ComparisonResult) : List ComparisonResult → List ComparisonResult
  | [] => [x]
  | y :: ys => if sortCompare x y < 0 then y :: insertRev x ys else x :: y :: ys

/-- `results.sort(comparator)` (line 130): insertion sort with
`sortCompare`, scanning each sorted prefix from its right end, as the
engine's binary insertion sort does for runs of this length. -/
def sortResults (results : List ComparisonResult) : List ComparisonResult :=
  (results.foldl (fun acc r => insertRev r acc) []).reverse

/-- `true` exactly on records whose similarity is the string `"Error"`. -/
def isError (r : ComparisonResult) : Bool :=
  match r.similarityPercentage with
  | .error => true
  | _ => false

/-- `true` exactly on records whose similarity is a number. -/
def isNumeric (r : ComparisonResult) : Bool :=
  match r.similarityPercentage with
  | .num _ => true
  | _ => false

/-- The numeric similarity of a record, `0` for the sentinel strings. -/
def simValue (r : ComparisonResult) : ℚ :=
  match r.similarityPercentage with
  | .num v => v
  | _ => 0

/-- Whether a record's similarity is exactly the number `p`. -/
def tiedAt (p : ℚ) (r : ComparisonResult) : Bool :=
  match r.similarityPercentage with
  | .num v => decide (v = p)
  | _ => false

/-- `config.staging.urls` from `src/config.js`: the authoritative page
set of the run. -/
def stagingUrls : List String :=
  [ "/"
  , "/about/"
  , "/academic-calendar/"
  , "/admissions/"
  , "/apply/"
  , "/apply/?d=\x7binternal_program_code\x7d"
  , "/apply/?d=SHERIDAN.CA-B-BCPTRSCI"
  , "/apply/?d=SHERIDAN.CA-B-BINFOSCICBRSEC"
  , "/apply/?d=SHERIDAN.CA-B-BSCLCMTYDEV"
  , "/apply/?d=SHERIDAN.CA-B-GENARTSSCIIS"
  , "/apply/?d=URI-B-RNBS"
  , "/apply/?d=URI-B-RNBS&calculator=true"
  , "/degrees/area/"
  , "/degrees/area/prototype/"
  , "/privacy-policy/"
  , "/degrees/undergraduate/"
  , "/degrees/undergraduate/bachelors-computer-information-science/"
  , "/degrees/"
  , "/degrees/undergraduate/bachelors-computer-information-science/cyber-security/"
  , "/degrees/undergraduate/bachelors-computer-information-science/general/"
  , "/degrees/undergraduate/bachelors-social-community-development/"
  , "/degrees/undergraduate/general-arts-science-university-profile/"
  , "/online-experience/"
  , "/request-info/"
  , "/apply?d=URI-B-RNBS&calculator=true"
  , "/student-services/"
  , "/tuition/" ]

section SortLemmas

theorem isError_iff (r : ComparisonResult) :
    isError r = true ↔ r.similarityPercentage = .error := by
  cases h : r.similarityPercentage <;> simp [isError, h]

theorem isNumeric_iff (r : ComparisonResult) :
    isNumeric r = true ↔ ∃ v, r.similarityPercentage = .num v := by
  cases h : r.similarityPercentage <;> simp [isNumeric, h]

theorem sortCompare_error_left (x y : ComparisonResult) (hx : isError x = true) :
    sortCompare x y = -1 := by
  rw [isError_iff] at hx
  simp [sortCompare, hx]

theorem sortCompare_error_right (x y : ComparisonResult)
    (hx : isError x = false) (hy : isError y = true) : sortCompare x y = 1 := by
  have hx' : ¬ x.similarityPercentage = .error := by
    simp [← isError_iff, hx]
  rw [isError_iff] at hy
  simp [sortCompare, hx', hy]

theorem sortCompare_num_num (x y : ComparisonResult) (a b : ℚ)
    (hx : x.similarityPercentage = .num a) (hy : y.similarityPercentage = .num b) :
    sortCompare x y = a - b := by
  simp [sortCompare, hx, hy]

theorem insertRev_error (x : ComparisonResult) (hx : isError x = true) :
    ∀ r : List ComparisonResult, insertRev x r = r ++ [x] := by
  intro r
  induction r with
  | nil => rfl
  | cons y ys ih =>
      rw [insertRev, if_pos, ih, List.cons_append]
      rw [sortCompare_error_left x y hx]
      norm_num

theorem insertRev_append_of_errors (x : ComparisonResult) (hx : isError x = false)
    (E : List ComparisonResult) (hE : ∀ e ∈ E, isError e = true) :
    ∀ a : List ComparisonResult, insertRev x (a ++ E) = insertRev x a ++ E := by
  intro a
  induction a with
  | nil =>
      cases E with
      | nil => rfl
      | cons e E' =>
          have h2 : ¬ sortCompare x e < 0 := by
            rw [sortCompare_error_right x e hx (hE e (by simp))]
            norm_num
          simp only [List.nil_append, insertRev, if_neg h2]
          simp
  | cons y a' ih =>
      rw [List.cons_append, insertRev, insertRev]
      by_cases h : sortCompare x y < 0
      · rw [if_pos h, if_pos h, ih, List.cons_append]
      · rw [if_neg h, if_neg h]
        simp

theorem foldl_insertRev_split (l : List ComparisonResult) :
    ∀ racc E : List ComparisonResult, (∀ e ∈ E, isError e = true) →
      l.foldl (fun acc r => insertRev r acc) (racc ++ E)
        = (l.filter fun r => !isError r).foldl (fun acc r => insertRev r acc) racc
            ++ E ++ l.filter isError := by
  induction l with
  | nil => intro racc E _; simp
  | cons x l ih =>
      intro racc E hE
      by_cases hx : isError x = true
      · rw [List.foldl_cons, insertRev_error x hx, List.append_assoc,
          ih racc (E ++ [x]) ?hErr]
        case hErr =>
          intro e he
          rcases List.mem_append.mp he with h | h
          · exact hE e h
          · simp at h; subst h; exact hx
        have h1 : (x :: l).filter (fun r => !isError r) = l.filter fun r => !isError r := by
          simp [List.filter_cons, hx]
        have h2 : (x :: l).filter isError = x :: l.filter isError := by
          simp [List.filter_cons, hx]
        rw [h1, h2]
        simp [List.append_assoc]
      · rw [List.foldl_cons,
          insertRev_append_of_errors x (Bool.not_eq_true _ ▸ Bool.of_not_eq_true hx) E hE racc]
        rw [ih (insertRev x racc) E hE]
        have hxf : isError x = false := Bool.of_not_eq_true hx
        have h1 : (x :: l).filter (fun r => !isError r)
            = x :: l.filter fun r => !isError r := by
          simp [List.filter_cons, hxf]
        have h2 : (x :: l).filter isError = l.filter isError := by
          simp [List.filter_cons, hxf]
        rw [h1, h2, List.foldl_cons]

theorem sortResults_split (l : List ComparisonResult) :
    sortResults l
      = (l.filter isError).reverse ++ sortResults (l.filter fun r => !isError r) := by
  unfold sortResults
  have h := foldl_insertRev_split l [] [] (by simp)
  simp only [List.append_nil, List.nil_append] at h
  rw [h, List.reverse_append]

theorem insertRev_perm (x : ComparisonResult) :
    ∀ r : List ComparisonResult, (insertRev x r).Perm (x :: r) := by
  intro r
  induction r with
  | nil => rfl
  | cons y ys ih =>
      rw [insertRev]
      by_cases h : sortCompare x y < 0
      · rw [if_pos h]
        exact ((ih.cons y).trans (List.Perm.swap x y ys))
      · rw [if_neg h]

theorem foldl_insertRev_perm (l : List ComparisonResult) :
    ∀ racc : List ComparisonResult,
      (l.foldl (fun acc r => insertRev r acc) racc).Perm (racc ++ l) := by
  induction l with
  | nil => intro racc; simp
  | cons x l ih =>
      intro racc
      rw [List.foldl_cons]
      exact (ih (insertRev x racc)).trans
        (((insertRev_perm x racc).append_right l).trans List.perm_middle.symm)

theorem sortResults_perm (l : List ComparisonResult) : (sortResults l).Perm l := by
  unfold sortResults
  exact (List.reverse_perm _).trans (by simpa using foldl_insertRev_perm l [])

theorem tiedAt_iff (p : ℚ) (r : ComparisonResult) :
    tiedAt p r = true ↔ r.similarityPercentage = .num p := by
  cases h : r.similarityPercentage <;> simp [tiedAt, h]

theorem sortCompare_numeric (x y : ComparisonResult)
    (hx : isNumeric x = true) (hy : isNumeric y = true) :
    sortCompare x y = simValue x - simValue y := by
  obtain ⟨a, ha⟩ := (isNumeric_iff x).mp hx
  obtain ⟨b, hb⟩ := (isNumeric_iff y).mp hy
  rw [sortCompare_num_num x y a b ha hb]
  simp [simValue, ha, hb]

theorem filter_insertRev (p : ℚ) (x : ComparisonResult) :
    ∀ r : List ComparisonResult,
      (insertRev x r).filter (tiedAt p)
        = if tiedAt p x = true then x :: r.filter (tiedAt p) else r.filter (tiedAt p) := by
  intro r
  induction r with
  | nil => simp [insertRev, List.filter_cons]
  | cons y ys ih =>
      by_cases hxy : sortCompare x y < 0
      · rw [insertRev, if_pos hxy]
        by_cases hy : tiedAt p y = true
        · have hxF : tiedAt p x = false := by
            cases hxT : tiedAt p x
            · rfl
            · exfalso
              have h0 : sortCompare x y = 0 := by
                rw [sortCompare_num_num x y p p ((tiedAt_iff p x).mp hxT)
                  ((tiedAt_iff p y).mp hy)]
                ring
              rw [h0] at hxy
              exact absurd hxy (by norm_num)
          simp [List.filter_cons, hy, hxF, ih]
        · have hyF : tiedAt p y = false := Bool.of_not_eq_true hy
          simp [List.filter_cons, hyF, ih]
      · rw [insertRev, if_neg hxy, List.filter_cons]

theorem filter_foldl_insertRev (p : ℚ) (l : List ComparisonResult) :
    ∀ racc : List ComparisonResult,
      (l.foldl (fun acc r => insertRev r acc) racc).filter (tiedAt p)
        = (l.filter (tiedAt p)).reverse ++ racc.filter (tiedAt p) := by
  induction l with
  | nil => intro racc; simp
  | cons x l ih =>
      intro racc
      rw [List.foldl_cons, ih (insertRev x racc), filter_insertRev p x racc,
        List.filter_cons]
      by_cases hx : tiedAt p x = true
      · rw [hx, if_pos rfl, if_pos rfl]
        simp
      · have hxF : tiedAt p x = false := by
          cases h : tiedAt p x
          · rfl
          · exact absurd h hx
        rw [hxF, if_neg (by simp), if_neg (by simp)]

theorem sortResults_filter_tied (l : List ComparisonResult) (p : ℚ) :
    (sortResults l).filter (tiedAt p) = l.filter (tiedAt p) := by
  unfold sortResults
  rw [List.filter_reverse, filter_foldl_insertRev p l []]
  simp

theorem insertRev_chain (x : ComparisonResult) (hx : isNumeric x = true) :
    ∀ r : List ComparisonResult, (∀ y ∈ r, isNumeric y = true) →
      List.Chain' (fun a b => simValue b ≤ simValue a) r →
      List.Chain' (fun a b => simValue b ≤ simValue a) (insertRev x r) := by
  intro r
  induction r with
  | nil => intro _ _; simp [insertRev]
  | cons y ys ih =>
      intro hmem hch
      have hy : isNumeric y = true := hmem y (by simp)
      by_cases hxy : sortCompare x y < 0
      · rw [insertRev, if_pos hxy]
        have hch' := (List.chain'_cons'.mp hch).2
        have hhd := (List.chain'_cons'.mp hch).1
        refine List.chain'_cons'.mpr ⟨?_, ih (fun z hz => hmem z (by simp [hz])) hch'⟩
        intro z hz
        have hxlt : simValue x ≤ simValue y := by
          rw [sortCompare_numeric x y hx hy] at hxy
          linarith
        cases ys with
        | nil =>
            simp [insertRev] at hz
            subst hz
            exact hxlt
        | cons w ws =>
            rw [insertRev] at hz
            by_cases hxw : sortCompare x w < 0
            · rw [if_pos hxw] at hz
              simp at hz
              subst hz
              exact hhd w (by simp)
            · rw [if_neg hxw] at hz
              simp at hz
              subst hz
              exact hxlt
      · rw [insertRev, if_neg hxy]
        refine List.chain'_cons'.mpr ⟨?_, hch⟩
        intro z hz
        simp at hz
        subst hz
        rw [sortCompare_numeric x y hx hy] at hxy
        linarith

theorem foldl_insertRev_chain (l : List ComparisonResult) :
    ∀ racc : List ComparisonResult, (∀ r ∈ l, isNumeric r = true) →
      (∀ r ∈ racc, isNumeric r = true) →
      List.Chain' (fun a b => simValue b ≤ simValue a) racc →
      List.Chain' (fun a b => simValue b ≤ simValue a)
        (l.foldl (fun acc r => insertRev r acc) racc) := by
  induction l with
  | nil => intro racc _ _ hch; exact hch
  | cons x l ih =>
      intro racc hl hracc hch
      have hx : isNumeric x = true := hl x (by simp)
      rw [List.foldl_cons]
      refine ih (insertRev x racc) (fun r hr => hl r (by simp [hr])) ?_ ?_
      · intro r hr
        have hr' : r ∈ x :: racc := (insertRev_perm x racc).mem_iff.mp hr
        rcases List.mem_cons.mp hr' with h | h
        · subst h
          exact hx
        · exact hracc r h
      · exact insertRev_chain x hx racc hracc hch

theorem sortResults_chain (l : List ComparisonResult)
    (h : ∀ r ∈ l, isNumeric r = true) :
    List.Chain' (fun a b => simValue a ≤ simValue b) (sortResults l) := by
  unfold sortResults
  rw [List.chain'_reverse]
  exact foldl_insertRev_chain l [] h (by simp) (by simp)

end SortLemmas

/-- Claim C1, counterexample: the comparator is not consistent — it
returns `-1` for an error/error pair in **either** order — and the
error/error tie does not retain its original relative order: sorting the
two-error list swaps the records. -/
theorem sortResults_error_ties_reversed :
    sortResults [⟨"/one", .error, none⟩, ⟨"/two", .error, none⟩]
        = [⟨"/two", .error, none⟩, ⟨"/one", .error, none⟩]
      ∧ sortCompare ⟨"/one", .error, none⟩ ⟨"/two", .error, none⟩ = -1
      ∧ sortCompare ⟨"/two", .error, none⟩ ⟨"/one", .error, none⟩ = -1 := by
  decide

/-- Claim C1 (amended): the report assembler presents Error-outcome rows
first — as the original error subsequence in reversed relative order,
because the comparator returns `-1` on every error/error pair — followed
by the numeric rows in ascending similarity order; equal-similarity
(pass/pass) ties retain their original relative order; and for the input
outcomes `[Pass(98), Error, Fail(40), Pass(99), Error]` the assembled
outcome order is `[Error, Error, Fail(40), Pass(98), Pass(99)]`. -/
theorem sortResults_presentation :
    (∀ l : List ComparisonResult,
        sortResults l
          = (l.filter isError).reverse ++ sortResults (l.filter fun r => !isError r))
    ∧ (∀ (l : List ComparisonResult) (p : ℚ),
        (sortResults l).filter (tiedAt p) = l.filter (tiedAt p))
    ∧ (∀ l : List ComparisonResult, (∀ r ∈ l, isNumeric r = true) →
        List.Chain' (fun a b => simValue a ≤ simValue b) (sortResults l))
    ∧ (sortResults
          [⟨"/p1", .num 98, none⟩, ⟨"/p2", .error, none⟩, ⟨"/p3", .num 40, none⟩,
            ⟨"/p4", .num 99, none⟩, ⟨"/p5", .error, none⟩]).map
          ComparisonResult.similarityPercentage
        = [.error, .error, .num 40, .num 98, .num 99] :=
  ⟨sortResults_split, sortResults_filter_tied, sortResults_chain,
    by norm_num [sortResults, insertRev, sortCompare]⟩

/-- Witness for C1: the ascending-order clause applied to a concrete
all-numeric input. -/
theorem sortResults_presentation_witness :
    (∀ r ∈ [(⟨"/a", Similarity.num 50, none⟩ : ComparisonResult),
        ⟨"/b", Similarity.num 20, none⟩], isNumeric r = true)
    ∧ List.Chain' (fun a b => simValue a ≤ simValue b)
        (sortResults [⟨"/a", Similarity.num 50, none⟩, ⟨"/b", Similarity.num 20, none⟩]) :=
  ⟨by decide, sortResults_presentation.2.2.1 _ (by decide)⟩

/-- Claim C2: for every numeric similarity percentage `v`, the report
classifies the row as Pass iff `95 ≤ v` and as Fail iff `v < 95`, both in
the row status cell and in the summary counters; the threshold is
inclusive on the pass side. -/
theorem classification_threshold :
    ∀ (path : String) (e : Option String) (v : ℚ),
      (rowStatusText ⟨path, .num v, e⟩ = "Pass" ↔ 95 ≤ v)
      ∧ (rowStatusText ⟨path, .num v, e⟩ = "Fail" ↔ v < 95)
      ∧ (countPassed [⟨path, .num v, e⟩] = 1 ↔ 95 ≤ v)
      ∧ (countFailed [⟨path, .num v, e⟩] = 1 ↔ v < 95)
      ∧ rowStatusText ⟨path, .num 95, e⟩ = "Pass" := by
  intro path e v
  have hPF : ("Pass" : String) ≠ "Fail" := by decide
  by_cases h : 95 ≤ v
  · have hv : ¬ v < 95 := not_lt.mpr h
    refine ⟨?_, ?_, ?_, ?_, ?_⟩
    · simp [rowStatusText, if_pos h, h]
    · simp [rowStatusText, if_pos h, hPF, hv]
    · simp [countPassed, List.filter_cons, h]
    · simp [countFailed, List.filter_cons, hv]
    · simp [rowStatusText]
  · have hv : v < 95 := not_le.mp h
    refine ⟨?_, ?_, ?_, ?_, ?_⟩
    · simp [rowStatusText, if_neg h, hPF.symm, h]
    · simp [rowStatusText, if_neg h, hv]
    · simp [countPassed, List.filter_cons, h]
    · simp [countFailed, List.filter_cons, hv]
    · simp [rowStatusText]

/-- Claim C3: the orchestrator loop yields exactly one `ComparisonResult`
per input `pagePath`, in input order, whatever each iteration does
(complete with a value or throw) — a failure on one page never aborts the
rest — and the report's sort only permutes those records, so every input
path appears exactly once in the report. -/
theorem orchestrator_isolation_completeness :
    (∀ (behavior : String → PageStep) (paths : List String),
        (runComparisons behavior paths).map ComparisonResult.pagePath = paths)
    ∧ (∀ (behavior : String → PageStep) (paths : List String),
        (sortResults (runComparisons behavior paths)).Perm
          (runComparisons behavior paths)) := by
  constructor
  · intro behavior paths
    rw [runComparisons, List.map_map]
    have hcong : ∀ p ∈ paths,
        (ComparisonResult.pagePath ∘ fun pagePath =>
          match behavior pagePath with
          | .value s => (⟨pagePath, s, none⟩ : ComparisonResult)
          | .thrown m => ⟨pagePath, .error, some m⟩) p = p := by
      intro p _
      cases hb : behavior p <;> simp [Function.comp, hb]
    rw [List.map_congr_left hcong]
    exact List.map_id paths
  · intro behavior paths
    exact sortResults_perm _

/-- Claim C5, counterexample: a `"Size mismatch"` record is displayed as
an Error row but counted in none of the three summary counters, so the
counts do not add up to the total for such a sequence. -/
theorem summary_counts_sizeMismatch_gap :
    countPassed [⟨"/p", .sizeMismatch, none⟩] = 0
    ∧ countFailed [⟨"/p", .sizeMismatch, none⟩] = 0
    ∧ countErrors [⟨"/p", .sizeMismatch, none⟩] = 0
    ∧ [(⟨"/p", Similarity.sizeMismatch, none⟩ : ComparisonResult)].length = 1
    ∧ countPassed [⟨"/p", .sizeMismatch, none⟩]
        + countFailed [⟨"/p", .sizeMismatch, none⟩]
        + countErrors [⟨"/p", .sizeMismatch, none⟩]
        ≠ [(⟨"/p", Similarity.sizeMismatch, none⟩ : ComparisonResult)].length
    ∧ rowStatusText ⟨"/p", .sizeMismatch, none⟩ = "Error" := by
  decide

/-- Claim C5 (amended): every record's row is labelled exactly one of
Pass, Fail or Error, and the summary's pass, fail and error counts sum to
the total number of pages tested provided no record carries the
`"Size mismatch"` outcome (such a record is labelled Error in its row but
counted in none of the three counters). -/
theorem summary_counts_partition :
    (∀ results : List ComparisonResult,
        (∀ r ∈ results, r.similarityPercentage ≠ .sizeMismatch) →
        countPassed results + countFailed results + countErrors results
          = results.length)
    ∧ (∀ r : ComparisonResult,
        rowStatusText r = "Pass" ∨ rowStatusText r = "Fail"
          ∨ rowStatusText r = "Error") := by
  constructor
  · intro results h
    induction results with
    | nil => rfl
    | cons r rs ih =>
        have hrs : ∀ x ∈ rs, x.similarityPercentage ≠ .sizeMismatch :=
          fun x hx => h x (List.mem_cons_of_mem r hx)
        have ih' := ih hrs
        simp only [countPassed, countFailed, countErrors, List.filter_cons] at ih' ⊢
        cases hsim : r.similarityPercentage with
        | num v =>
            by_cases hv : 95 ≤ v
            · simp [hsim, hv, not_lt.mpr hv]
              omega
            · simp [hsim, hv, not_le.mp hv]
              omega
        | error =>
            simp [hsim]
            omega
        | sizeMismatch => exact absurd hsim (h r (by simp))
  · intro r
    cases hsim : r.similarityPercentage with
    | num v =>
        by_cases hv : 95 ≤ v
        · left
          simp [rowStatusText, hsim, hv]
        · right; left
          simp [rowStatusText, hsim, hv]
    | error => right; right; simp [rowStatusText, hsim]
    | sizeMismatch => right; right; simp [rowStatusText, hsim]

/-- Witness for C5: the count partition applied to a concrete
mismatch-free record list. -/
theorem summary_counts_partition_witness :
    (∀ r ∈ [(⟨"/a", Similarity.error, none⟩ : ComparisonResult)],
        r.similarityPercentage ≠ .sizeMismatch)
    ∧ countPassed [⟨"/a", Similarity.error, none⟩]
        + countFailed [⟨"/a", Similarity.error, none⟩]
        + countErrors [⟨"/a", Similarity.error, none⟩]
        = [(⟨"/a", Similarity.error, none⟩ : ComparisonResult)].length :=
  ⟨by decide, summary_counts_partition.1 _ (by decide)⟩

/-- Claim C9, counterexample: replacing every `/` by `_` is not injective
on page paths — the distinct paths `/a/b` and `/a_b` sanitize to the same
artifact name, hence to the same staging screenshot path. -/
theorem sanitize_not_injective :
    sanitize "/a_b" = sanitize "/a/b" ∧ "/a_b" ≠ "/a/b"
    ∧ stagingPath "/a_b" = stagingPath "/a/b" := by
  decide

/-- Claim C9 (amended): the sanitisation is not injective on arbitrary
PagePaths (paths differing only in `/` versus `_` collide), but on the
run's configured page set `config.staging.urls` the 27 sanitized names
are pairwise distinct, so the per-environment artifact files of this run
never collide. -/
theorem sanitize_nodup_on_config :
    (stagingUrls.map sanitize).Nodup ∧ stagingUrls.Nodup := by
  decide

/-- A 1×1 raster used as a concrete witness input. -/
def unitRaster : Raster := ⟨1, 1, fun _ _ => background⟩

/-- Claim C6: for equal-dimension rasters the diff engine's similarity
equals `(totalPixels - mismatchedPixels) / totalPixels * 100`, lies in
`[0, 100]`, and diffing a raster against itself yields exactly `100`. -/
theorem diffSimilarity_spec :
    ∀ img1 img2 : Raster, img1.width = img2.width → img1.height = img2.height →
      0 < img1.width * img1.height →
      diffSimilarity img1 img2
          = (((img1.width * img1.height : ℕ) : ℚ) - (pixelmatchCount img1 img2 : ℚ))
              / ((img1.width * img1.height : ℕ) : ℚ) * 100
      ∧ 0 ≤ diffSimilarity img1 img2
      ∧ diffSimilarity img1 img2 ≤ 100
      ∧ pixelmatchCount img1 img1 = 0
      ∧ diffSimilarity img1 img1 = 100 := by
  intro a b _ _ hpos
  have hmle : pixelmatchCount a b ≤ a.width * a.height := by
    unfold pixelmatchCount
    calc (List.filter _ (List.range (a.width * a.height))).length
        ≤ (List.range (a.width * a.height)).length := List.length_filter_le _ _
      _ = a.width * a.height := List.length_range _
  have ht : (0 : ℚ) < ((a.width * a.height : ℕ) : ℚ) := by exact_mod_cast hpos
  have hmq : ((pixelmatchCount a b : ℕ) : ℚ) ≤ ((a.width * a.height : ℕ) : ℚ) := by
    exact_mod_cast hmle
  have hm0 : (0 : ℚ) ≤ ((pixelmatchCount a b : ℕ) : ℚ) := by positivity
  have hself : pixelmatchCount a a = 0 := by
    unfold pixelmatchCount
    rw [List.length_eq_zero]
    rw [List.filter_eq_nil_iff]
    intro i _
    simp [pixelDiffers, pixelDelta, Nat.dist_self]
  refine ⟨rfl, ?_, ?_, hself, ?_⟩
  · unfold diffSimilarity
    have h1 : (0 : ℚ) ≤ ((a.width * a.height : ℕ) : ℚ) - ((pixelmatchCount a b : ℕ) : ℚ) := by
      linarith
    have h2 : (0 : ℚ)
        ≤ (((a.width * a.height : ℕ) : ℚ) - ((pixelmatchCount a b : ℕ) : ℚ))
            / ((a.width * a.height : ℕ) : ℚ) := div_nonneg h1 (le_of_lt ht)
    nlinarith
  · unfold diffSimilarity
    have h1 : (((a.width * a.height : ℕ) : ℚ) - ((pixelmatchCount a b : ℕ) : ℚ))
        / ((a.width * a.height : ℕ) : ℚ) ≤ 1 := by
      rw [div_le_one ht]
      linarith
    nlinarith
  · unfold diffSimilarity
    rw [hself]
    simp only [Nat.cast_zero, sub_zero]
    rw [div_self (ne_of_gt ht), one_mul]

/-- Witness for C6: the self-diff clause applied to the unit raster. -/
theorem diffSimilarity_spec_witness :
    unitRaster.width = unitRaster.width ∧ 0 < unitRaster.width * unitRaster.height
    ∧ diffSimilarity unitRaster unitRaster = 100 :=
  ⟨rfl, by decide,
    (diffSimilarity_spec unitRaster unitRaster rfl rfl (by decide)).2.2.2.2⟩

theorem normalize_pix_outside (x : Raster) (w h a b : ℕ) (hab : ¬(a < w ∧ b < h)) :
    (normalize x w h).pix a b = background := by
  simp only [normalize]
  rw [if_neg]
  intro hc
  exact hab ⟨hc.1, hc.2.1⟩

theorem normalize_of_dims (r : Raster) (w h : ℕ) (hw : 0 < w) (hh : 0 < h)
    (hrw : r.width = w) (hrh : r.height = h) :
    normalize r w h
      = ⟨w, h, fun a b => if a < w ∧ b < h then r.pix a b else background⟩ := by
  have hwq : ((w : ℚ)) ≠ 0 := Nat.cast_ne_zero.mpr hw.ne'
  have hhq : ((h : ℚ)) ≠ 0 := Nat.cast_ne_zero.mpr hh.ne'
  have hs : min ((w : ℚ) / (w : ℚ)) ((h : ℚ) / (h : ℚ)) = 1 := by
    rw [div_self hwq, div_self hhq, min_self]
  have hfl : ∀ n : ℕ, ((⌊((n : ℚ)) * 1⌋).toNat) = n := by
    intro n
    rw [mul_one]
    simp
  refine Raster.ext rfl rfl ?_
  funext a b
  simp only [normalize, hs, hrw, hrh, hfl, Nat.sub_self, Nat.zero_div,
    Nat.sub_zero, div_one, zero_add, Nat.zero_le, true_and]
  by_cases hab : a < w ∧ b < h
  · rw [if_pos ⟨hab.1, hab.2, hab.1, hab.2⟩, if_pos hab]
    simp
  · rw [if_neg, if_neg hab]
    intro hc
    exact hab ⟨hc.1, hc.2.1⟩

/-- Claim C7: normalization is idempotent — re-normalizing an
already-normalized raster to the same (positive) canvas leaves its
dimensions and every pixel unchanged. -/
theorem normalize_idempotent :
    ∀ (x : Raster) (w h : ℕ), 0 < w → 0 < h →
      normalize (normalize x w h) w h = normalize x w h := by
  intro x w h hw hh
  rw [normalize_of_dims (normalize x w h) w h hw hh rfl rfl]
  refine Raster.ext rfl rfl ?_
  funext a b
  by_cases hab : a < w ∧ b < h
  · simp only [if_pos hab]
  · show (if a < w ∧ b < h then (normalize x w h).pix a b else background)
        = (normalize x w h).pix a b
    rw [if_neg hab, (normalize_pix_outside x w h a b hab)]

/-- Witness for C7: idempotence applied to the unit raster on the
canonical 1280×800 canvas. -/
theorem normalize_idempotent_witness :
    (0 : ℕ) < 1280 ∧ (0 : ℕ) < 800
    ∧ normalize (normalize unitRaster 1280 800) 1280 800
        = normalize unitRaster 1280 800 :=
  ⟨by decide, by decide, normalize_idempotent unitRaster 1280 800 (by decide) (by decide)⟩

section FilesystemLemmas

theorem ne_of_prefix_char (lit1 lit2 s1 s2 e1 e2 : String)
    (h1 : 20 < lit1.data.length) (h2 : 20 < lit2.data.length)
    (hc : lit1.data[20]? ≠ lit2.data[20]?) :
    lit1 ++ s1 ++ e1 ≠ lit2 ++ s2 ++ e2 := by
  intro hEq
  apply hc
  have hdata := congrArg String.data hEq
  rw [String.data_append, String.data_append, String.data_append,
    String.data_append] at hdata
  have h20 := congrArg (fun l => l[20]?) hdata
  simp only at h20
  have b1 : 20 < (lit1.data ++ s1.data).length := by
    rw [List.length_append]
    omega
  have b2 : 20 < (lit2.data ++ s2.data).length := by
    rw [List.length_append]
    omega
  rw [List.getElem?_append_left b1, List.getElem?_append_left h1,
    List.getElem?_append_left b2, List.getElem?_append_left h2] at h20
  exact h20

theorem stagingPath_ne_prodPath (p : String) : stagingPath p ≠ prodPath p :=
  ne_of_prefix_char _ _ _ _ _ _ (by decide) (by decide) (by decide)

theorem stagingPath_ne_diffPath (p : String) : stagingPath p ≠ diffPath p :=
  ne_of_prefix_char _ _ _ _ _ _ (by decide) (by decide) (by decide)

theorem prodPath_ne_diffPath (p : String) : prodPath p ≠ diffPath p :=
  ne_of_prefix_char _ _ _ _ _ _ (by decide) (by decide) (by decide)

@[simp] theorem writeRaster_same (fs : FS) (p : String) (r : Raster) :
    writeRaster fs p r p = some r := by
  simp [writeRaster]

theorem writeRaster_other (fs : FS) (p : String) (r : Raster) (q : String)
    (h : q ≠ p) : writeRaster fs p r q = fs q := by
  simp [writeRaster, h]

theorem resizeImage_self (fs : FS) (p : String) (w h : ℕ) (i : Raster)
    (hp : fs p = some i) : resizeImage fs p w h p = some (normalize i w h) := by
  simp [resizeImage, readRaster, hp]

theorem resizeImage_other (fs : FS) (p : String) (w h : ℕ) (q : String)
    (hq : q ≠ p) : resizeImage fs p w h q = fs q := by
  simp [resizeImage, writeRaster, hq]

theorem compareScreenshots_missing (pm : Raster → Raster → ℕ)
    (mask : Raster → Raster → Raster) (fs : FS) (b c d : String)
    (h : fs b = none) :
    compareScreenshots pm mask fs b c d = (.error, fs) := by
  unfold compareScreenshots
  rw [if_pos (by simp [h])]

theorem compareScreenshots_missing_current (pm : Raster → Raster → ℕ)
    (mask : Raster → Raster → Raster) (fs : FS) (b c d : String)
    (h : fs c = none) :
    compareScreenshots pm mask fs b c d = (.error, fs) := by
  unfold compareScreenshots
  rw [if_pos (by simp [h])]

theorem compareScreenshots_run (pm : Raster → Raster → ℕ)
    (mask : Raster → Raster → Raster) (fs : FS) (b c d : String) (i1 i2 : Raster)
    (hbc : b ≠ c) (hb : fs b = some i1) (hc : fs c = some i2) :
    compareScreenshots pm mask fs b c d
      = (.num ((((1280 * 800 : ℕ) : ℚ)
              - (pm (normalize i1 1280 800) (normalize i2 1280 800) : ℚ))
            / ((1280 * 800 : ℕ) : ℚ) * 100),
        writeRaster (resizeImage (resizeImage fs b 1280 800) c 1280 800) d
          (mask (normalize i1 1280 800) (normalize i2 1280 800))) := by
  have h1 : resizeImage fs b 1280 800 b = some (normalize i1 1280 800) :=
    resizeImage_self fs b 1280 800 i1 hb
  have h1c : resizeImage fs b 1280 800 c = some i2 := by
    rw [resizeImage_other fs b 1280 800 c (Ne.symm hbc)]
    exact hc
  have h2b : resizeImage (resizeImage fs b 1280 800) c 1280 800 b
      = some (normalize i1 1280 800) := by
    rw [resizeImage_other _ c 1280 800 b hbc]
    exact h1
  have h2c : resizeImage (resizeImage fs b 1280 800) c 1280 800 c
      = some (normalize i2 1280 800) :=
    resizeImage_self _ c 1280 800 i2 h1c
  unfold compareScreenshots
  rw [if_neg (by simp [hb, hc])]
  simp only [readRaster, h2b, h2c, Option.getD_some]
  rw [if_neg (by simp)]
  rfl

end FilesystemLemmas

/-- Claim C8: when both capture files are present (and hence decoded),
both rasters are normalized to the fixed 1280×800 canvas before the
dimension comparison, so the post-normalization dimensions always agree
and `compareScreenshots` can never take its size-mismatch branch. -/
theorem compareScreenshots_no_sizeMismatch :
    ∀ (pm : Raster → Raster → ℕ) (mask : Raster → Raster → Raster) (fs : FS)
      (b c d : String) (i1 i2 : Raster),
      fs b = some i1 → fs c = some i2 →
      (compareScreenshots pm mask fs b c d).1 ≠ .sizeMismatch := by
  intro pm mask fs b c d i1 i2 hb hc
  by_cases hbc : b = c
  · subst hbc
    unfold compareScreenshots
    rw [if_neg (by simp [hb])]
    rw [if_neg (by simp)]
    simp
  · rw [compareScreenshots_run pm mask fs b c d i1 i2 hbc hb hc]
    simp

/-- A two-file filesystem used as a concrete witness input. -/
def fsPair : FS := fun q =>
  if q = "b.png" then some unitRaster
  else if q = "c.png" then some unitRaster
  else none

/-- Witness for C8: no size mismatch on a concrete two-file run. -/
theorem compareScreenshots_no_sizeMismatch_witness :
    fsPair "b.png" = some unitRaster ∧ fsPair "c.png" = some unitRaster
    ∧ (compareScreenshots pixelmatchCount diffMask fsPair
        "b.png" "c.png" "d.png").1 ≠ .sizeMismatch :=
  ⟨rfl, rfl,
    compareScreenshots_no_sizeMismatch pixelmatchCount diffMask fsPair
      "b.png" "c.png" "d.png" unitRaster unitRaster rfl rfl⟩

/-- Claim C4, counterexample: the acquirer fails with message
`"timeout"`, the staging capture is missing, yet the recorded record is
`{ pagePath, similarityPercentage: "Error" }` with **no** `error` field —
the acquirer's message is not carried — and the report row renders the
literal `"Error"`. -/
theorem missing_capture_no_message :
    (processPage pixelmatchCount diffMask (fun _ => none) "/about/"
        (.failure "timeout") (.failure "boom")).1.error = none
    ∧ (processPage pixelmatchCount diffMask (fun _ => none) "/about/"
        (.failure "timeout") (.failure "boom")).1
      = ⟨"/about/", .error, none⟩
    ∧ rowStatusText (processPage pixelmatchCount diffMask (fun _ => none) "/about/"
        (.failure "timeout") (.failure "boom")).1 = "Error" :=
  ⟨rfl, rfl, rfl⟩

/-- Claim C4 (amended): when either capture file is missing after a
failed acquisition — the staging one or the prod one — the recorded
`ComparisonResult` is the bare `"Error"` outcome with no message field,
diffing is not attempted (the outcome is the same for every diff
function); the report's Error row shows the literal text `"Error"` in
both its similarity and status cells, and the rendered row never depends
on the record's `error` field, so no captured reason string is
surfaced. -/
theorem missing_capture_error :
    (∀ (pm : Raster → Raster → ℕ) (mask : Raster → Raster → Raster) (fs : FS)
        (p m : String) (out : CaptureOutcome),
        fs (stagingPath p) = none →
        (processPage pm mask fs p (.failure m) out).1 = ⟨p, .error, none⟩)
    ∧ (∀ (pm : Raster → Raster → ℕ) (mask : Raster → Raster → Raster) (fs : FS)
        (p m : String) (out : CaptureOutcome),
        fs (prodPath p) = none →
        (processPage pm mask fs p out (.failure m)).1 = ⟨p, .error, none⟩)
    ∧ (∀ (toFixed : ℚ → String) (r : ComparisonResult) (s : Option String),
        rowSimilarityText toFixed { r with error := s } = rowSimilarityText toFixed r
        ∧ rowStatusText { r with error := s } = rowStatusText r)
    ∧ (∀ (toFixed : ℚ → String) (p : String) (e : Option String),
        rowSimilarityText toFixed ⟨p, .error, e⟩ = "Error"
        ∧ rowStatusText ⟨p, .error, e⟩ = "Error") := by
  refine ⟨?_, ?_, ?_, ?_⟩
  · intro pm mask fs p m out hmiss
    have hfs2 : captureScreenshot (captureScreenshot fs (stagingPath p) (.failure m))
        (prodPath p) out (stagingPath p) = none := by
      cases out with
      | success img =>
          show writeRaster fs (prodPath p) img (stagingPath p) = none
          rw [writeRaster_other fs (prodPath p) img (stagingPath p)
            (stagingPath_ne_prodPath p)]
          exact hmiss
      | failure m2 => exact hmiss
    simp only [processPage]
    rw [compareScreenshots_missing pm mask _ (stagingPath p) (prodPath p)
      (diffPath p) hfs2]
  · intro pm mask fs p m out hmiss
    have hfs2 : captureScreenshot (captureScreenshot fs (stagingPath p) out)
        (prodPath p) (.failure m) (prodPath p) = none := by
      cases out with
      | success img =>
          show writeRaster fs (stagingPath p) img (prodPath p) = none
          rw [writeRaster_other fs (stagingPath p) img (prodPath p)
            (Ne.symm (stagingPath_ne_prodPath p))]
          exact hmiss
      | failure m2 => exact hmiss
    simp only [processPage]
    rw [compareScreenshots_missing_current pm mask _ (stagingPath p) (prodPath p)
      (diffPath p) hfs2]
  · intro toFixed r s
    cases r
    exact ⟨rfl, rfl⟩
  · intro toFixed p e
    exact ⟨rfl, rfl⟩

/-- Witness for C4: the staging-missing and prod-missing clauses applied
to the empty filesystem. -/
theorem missing_capture_error_witness :
    ((fun _ => (none : Option Raster)) (stagingPath "/about/") = none)
    ∧ (processPage pixelmatchCount diffMask (fun _ => none) "/about/"
        (.failure "timeout") (.success unitRaster)).1
      = ⟨"/about/", .error, none⟩
    ∧ (processPage pixelmatchCount diffMask (fun _ => none) "/about/"
        (.success unitRaster) (.failure "timeout")).1
      = ⟨"/about/", .error, none⟩ :=
  ⟨rfl,
    missing_capture_error.1 pixelmatchCount diffMask (fun _ => none) "/about/"
      "timeout" (.success unitRaster) rfl,
    missing_capture_error.2.1 pixelmatchCount diffMask (fun _ => none) "/about/"
      "timeout" (.success unitRaster) rfl⟩

/-- Claim C10: `resizeImage` overwrites the capture artifact in place —
the normalized raster is written back to the very path that held the
original capture, every other path is untouched — the report assembler
reads the same artifact paths the orchestrator wrote, and after a
successful page run the staging and production images it embeds are the
normalized 1280×800 versions, not the raw captures. -/
theorem resize_in_place_report :
    (∀ (fs : FS) (p : String) (w h : ℕ) (i : Raster), fs p = some i →
        resizeImage fs p w h p = some (normalize i w h))
    ∧ (∀ (fs : FS) (p q : String) (w h : ℕ), q ≠ p →
        resizeImage fs p w h q = fs q)
    ∧ (∀ p : String, reportStagingPath p = stagingPath p
        ∧ reportProdPath p = prodPath p)
    ∧ (∀ (pm : Raster → Raster → ℕ) (mask : Raster → Raster → Raster) (fs : FS)
        (p : String) (i1 i2 : Raster),
        imageToBase64 (processPage pm mask fs p (.success i1) (.success i2)).2
            (reportStagingPath p)
          = some (normalize i1 1280 800)
        ∧ imageToBase64 (processPage pm mask fs p (.success i1) (.success i2)).2
            (reportProdPath p)
          = some (normalize i2 1280 800)
        ∧ ∀ q : String, q ≠ stagingPath p → q ≠ prodPath p → q ≠ diffPath p →
            (processPage pm mask fs p (.success i1) (.success i2)).2 q = fs q) := by
  refine ⟨?_, ?_, ?_, ?_⟩
  · intro fs p w h i hp
    exact resizeImage_self fs p w h i hp
  · intro fs p q w h hq
    exact resizeImage_other fs p w h q hq
  · intro p
    exact ⟨rfl, rfl⟩
  · intro pm mask fs p i1 i2
    set sp := stagingPath p
    set pp := prodPath p
    set dp := diffPath p
    have hsp : sp ≠ pp := stagingPath_ne_prodPath p
    have hsd : sp ≠ dp := stagingPath_ne_diffPath p
    have hpd : pp ≠ dp := prodPath_ne_diffPath p
    have hfs2b : writeRaster (writeRaster fs sp i1) pp i2 sp = some i1 := by
      rw [writeRaster_other _ pp i2 sp hsp, writeRaster_same]
    have hfs2c : writeRaster (writeRaster fs sp i1) pp i2 pp = some i2 :=
      writeRaster_same _ pp i2
    have hrun := compareScreenshots_run pm mask
      (writeRaster (writeRaster fs sp i1) pp i2) sp pp dp i1 i2 hsp hfs2b hfs2c
    have hsnd : (processPage pm mask fs p (.success i1) (.success i2)).2
        = writeRaster
            (resizeImage (resizeImage (writeRaster (writeRaster fs sp i1) pp i2)
              sp 1280 800) pp 1280 800) dp
            (mask (normalize i1 1280 800) (normalize i2 1280 800)) := by
      simp only [processPage, captureScreenshot]
      rw [hrun]
    refine ⟨?_, ?_, ?_⟩
    · show imageToBase64 _ sp = _
      rw [hsnd]
      unfold imageToBase64
      rw [writeRaster_other _ dp _ sp hsd,
        resizeImage_other _ pp 1280 800 sp hsp,
        resizeImage_self _ sp 1280 800 i1 hfs2b]
    · show imageToBase64 _ pp = _
      rw [hsnd]
      unfold imageToBase64
      have hmid : resizeImage (writeRaster (writeRaster fs sp i1) pp i2)
          sp 1280 800 pp = some i2 := by
        rw [resizeImage_other _ sp 1280 800 pp (Ne.symm hsp)]
        exact hfs2c
      rw [writeRaster_other _ dp _ pp hpd,
        resizeImage_self _ pp 1280 800 i2 hmid]
    · intro q hq1 hq2 hq3
      rw [hsnd, writeRaster_other _ dp _ q hq3,
        resizeImage_other _ pp 1280 800 q hq2,
        resizeImage_other _ sp 1280 800 q hq1,
        writeRaster_other _ pp i2 q hq2,
        writeRaster_other _ sp i1 q hq1]

/-- Witness for C10: in-place overwrite applied to a concrete file. -/
theorem resize_in_place_report_witness :
    fsPair "b.png" = some unitRaster
    ∧ resizeImage fsPair "b.png" 1280 800 "b.png"
      = some (normalize unitRaster 1280 800) :=
  ⟨rfl, resize_in_place_report.1 fsPair "b.png" 1280 800 unitRaster rfl⟩

end VisualTest
